import Mathlib

/-!
Verification of the policy-enforcement and rate-limiting engine of this
repository: the `PolicyMiddleware` class of `policy_middleware.py`, together
with the governance endpoints `manual_override` and `approve_action` of
`main.py` that append to its audit log.

Modelling conventions.  Wall-clock timestamps (`time.time()`) are rationals
(`ℚ`); the value read inside a call is passed explicitly as `now`.  The
ISO-8601 rendering `datetime.now().isoformat()` used in audit entries is
passed as an opaque string `ts`.  The mutable attributes of a
`PolicyMiddleware` instance form the state record `MW`; a well-formed policy
dictionary is the record `Policy`.  A second, partiality-aware layer
(`RawPolicy`, `PyError`, `initMW`, `validate_actionE`) models the dictionary
lookups of `__init__` and `validate_action` that can raise `KeyError`.
-/

namespace PolicyMW

/-- A well-formed policy dictionary: all four keys present, as loaded from
the YAML file. -/
structure Policy where
  allowed_modules : List String
  restricted_actions : List String
  max_requests_per_minute : Nat
  burst_limit : Nat
deriving Repr, DecidableEq

/-- The mutable state of a `PolicyMiddleware` instance: `audit_log`,
`request_times` (deque front = oldest), `current_burst`,
`burst_window_start`. -/
structure MW where
  audit_log : List String
  request_times : List ℚ
  current_burst : Nat
  burst_window_start : Option ℚ
deriving Repr, DecidableEq

/-- The state right after `__init__`: empty audit log, empty deque, zero
burst counter, unset burst window. -/
def initState : MW :=
  { audit_log := [], request_times := [], current_burst := 0, burst_window_start := none }

/-- `_enforce_violation`: append a `[VIOLATION]` entry (the `print` alert is
an external side effect outside the state). -/
def enforceViolation (msg ts : String) (s : MW) : MW :=
  { s with audit_log := s.audit_log ++ ["[" ++ ts ++ "] [VIOLATION] " ++ msg] }

/-- The message of a burst-limit violation entry. -/
def burstMsg (bl : Nat) : String :=
  "Rate limit exceeded: burst limit (" ++ toString bl ++ ") reached"

/-- The message of a per-minute-limit violation entry. -/
def windowMsg (mx : Nat) : String :=
  "Rate limit exceeded: " ++ toString mx ++ " requests/minute limit reached"

/-- Lines 74-81 of `_check_rate_limit`: lazy initialization of
`burst_window_start` and the fixed-window reset once 60 seconds have
elapsed. -/
def rollBurst (now : ℚ) (s : MW) : MW :=
  let bws := s.burst_window_start.getD now
  if 60 ≤ now - bws then
    { s with current_burst := 0, burst_window_start := some now }
  else
    { s with burst_window_start := some bws }

/-- Lines 91-93 of `_check_rate_limit`: pop entries older than one minute
from the front of the deque. -/
def evict (now : ℚ) (l : List ℚ) : List ℚ :=
  l.dropWhile (fun t => decide (t < now - 60))

/-- `_check_rate_limit`: burst-window roll, burst check, sliding-window
eviction, per-minute check, in that order. -/
def checkRateLimit (mx bl : Nat) (now : ℚ) (ts : String) (s : MW) : Bool × MW :=
  let s1 := rollBurst now s
  if bl ≤ s1.current_burst then
    (false, enforceViolation (burstMsg bl) ts s1)
  else
    let s2 := { s1 with request_times := evict now s1.request_times }
    if mx ≤ s2.request_times.length then
      (false, enforceViolation (windowMsg mx) ts s2)
    else
      (true, s2)

/-- `_record_request`: append `now` to the deque and increment the burst
counter. -/
def recordRequest (now : ℚ) (s : MW) : MW :=
  { s with request_times := s.request_times ++ [now], current_burst := s.current_burst + 1 }

/-- The `[PASS]` audit entry written by `validate_action`. -/
def passEntry (a m ts : String) : String :=
  "[" ++ ts ++ "] [PASS] " ++ a ++ " executed in module '" ++ m ++ "'"

/-- `validate_action`: rate check first, then module allow-list, then
restricted-action list; record and log `[PASS]` only when all pass. -/
def validate_action (P : Policy) (a m : String) (now : ℚ) (ts : String) (s : MW) :
    Bool × MW :=
  match checkRateLimit P.max_requests_per_minute P.burst_limit now ts s with
  | (false, s1) => (false, s1)
  | (true, s1) =>
    if m ∉ P.allowed_modules then
      (false, enforceViolation ("Unauthorized module: " ++ m) ts s1)
    else if a ∈ P.restricted_actions then
      (false, enforceViolation ("Restricted action blocked: " ++ a) ts s1)
    else
      let s2 := recordRequest now s1
      (true, { s2 with audit_log := s2.audit_log ++ [passEntry a m ts] })

/-- `hasPre n h` holds when the character list `n` is an initial segment of
`h` (used to model Python's substring test). -/
def hasPre : List Char → List Char → Bool
  | [], _ => true
  | _ :: _, [] => false
  | a :: as, b :: bs => a = b && hasPre as bs

/-- `containsSub n h` models Python's `n in h` on strings: `n` occurs as a
contiguous substring of `h`. -/
def containsSub : List Char → List Char → Bool
  | n, [] => n.isEmpty
  | n, b :: bs => hasPre n (b :: bs) || containsSub n bs

/-- `get_audit_log`: the whole log (a defensive copy, identity here) or only
the entries containing the substring `"[VIOLATION]"`. -/
def get_audit_log (filter_violations : Bool) (s : MW) : List String :=
  if filter_violations then
    s.audit_log.filter (fun e => containsSub ("[VIOLATION]").data e.data)
  else
    s.audit_log

/-- Python's `round(x, 2)` modelled on `ℚ`: round to the nearest hundredth. -/
def round2 (q : ℚ) : ℚ := (round (100 * q) : ℤ) / 100

/-- The dictionary returned by `get_rate_limit_status`. -/
structure RateLimitStatus where
  requests_last_minute : Nat
  max_requests_per_minute : Nat
  remaining_requests : ℤ
  burst_usage : String
  time_until_rate_reset : ℚ
deriving Repr, DecidableEq

/-- `get_rate_limit_status`: count the deque entries of the last minute
without evicting, report remaining quota (possibly negative), burst usage as
a string, and the rounded time until the oldest entry leaves the window. -/
def get_rate_limit_status (mx bl : Nat) (now : ℚ) (s : MW) : RateLimitStatus :=
  let one_minute_ago := now - 60
  let requests_last_minute := s.request_times.countP (fun t => decide (one_minute_ago ≤ t))
  let time_until_reset : ℚ :=
    match s.request_times with
    | oldest :: _ => max 0 (60 - (now - oldest))
    | [] => 0
  { requests_last_minute := requests_last_minute
    max_requests_per_minute := mx
    remaining_requests := (mx : ℤ) - (requests_last_minute : ℤ)
    burst_usage := toString s.current_burst ++ "/" ++ toString bl
    time_until_rate_reset := round2 time_until_reset }

/-- The status record as §4.5 of the specification words it, for comparison
with `get_rate_limit_status`. -/
def rateLimitStatusSpec (mx bl : Nat) (now : ℚ) (s : MW) : RateLimitStatus :=
  let n := s.request_times.countP (fun t => decide (now - 60 ≤ t))
  { requests_last_minute := n
    max_requests_per_minute := mx
    remaining_requests := (mx : ℤ) - (n : ℤ)
    burst_usage := toString s.current_burst ++ "/" ++ toString bl
    time_until_rate_reset :=
      if s.request_times = [] then 0
      else round2 (max 0 (60 - (now - s.request_times.headI))) }

/-- The entry appended by the `/governance/override` endpoint of `main.py`. -/
def manual_override_entry (a m reason : String) : String :=
  "[MANUAL OVERRIDE] " ++ a ++ " in " ++ m ++ " - Reason: " ++ reason

/-- The entry appended by `/governance/approve-action` when approved. -/
def approval_granted_entry (a m : String) : String :=
  "[APPROVAL GRANTED] " ++ a ++ " in " ++ m

/-- The entry appended by `/governance/approve-action` when denied. -/
def approval_denied_entry (a m : String) : String :=
  "[APPROVAL DENIED] " ++ a ++ " in " ++ m

/-- One operation touching the audit log: a `validate_action` call or one of
the two manual governance endpoints of `main.py`. -/
inductive Op where
  | validate (a m : String) (now : ℚ) (ts : String)
  | manualOverride (a m reason : String)
  | approveAction (a m : String) (approved : Bool)

/-- Apply one operation to the middleware state. -/
def applyOp (P : Policy) (s : MW) : Op → MW
  | .validate a m now ts => (validate_action P a m now ts s).2
  | .manualOverride a m r =>
    { s with audit_log := s.audit_log ++ [manual_override_entry a m r] }
  | .approveAction a m ok =>
    { s with audit_log := s.audit_log ++
        [if ok then approval_granted_entry a m else approval_denied_entry a m] }

/-- Run a sequence of operations. -/
def runOps (P : Policy) (ops : List Op) (s : MW) : MW := ops.foldl (applyOp P) s

/-- Run a sequence of `validate_action` calls, each given as
(action, module, now, ts). -/
def runValidates (P : Policy) : List (String × String × ℚ × String) → MW → MW
  | [], s => s
  | (a, m, now, ts) :: rest, s => runValidates P rest (validate_action P a m now ts s).2

/-- Run `validate_action` with a fixed action and module at each time of a
list, collecting the returned booleans. -/
def runSeq (P : Policy) (a m ts : String) : List ℚ → MW → List Bool × MW
  | [], s => ([], s)
  | t :: rest, s =>
    let r := validate_action P a m t ts s
    let r2 := runSeq P a m ts rest r.2
    (r.1 :: r2.1, r2.2)

/-- Extract the tag of an audit entry of the form
`"[<ts>] [<tag>] <msg>"` (with `<ts>` and `<tag>` free of `]`). -/
def entryTag (e : String) : Option String :=
  match e.data with
  | '[' :: rest =>
    match rest.dropWhile (fun c => decide (c ≠ ']')) with
    | ']' :: ' ' :: '[' :: rest2 =>
      match rest2.dropWhile (fun c => decide (c ≠ ']')) with
      | ']' :: _ => some (String.mk (rest2.takeWhile (fun c => decide (c ≠ ']'))))
      | _ => none
    | _ => none
  | _ => none

/-- The closed tag set named by the specification. -/
def claimTags : List String :=
  ["PASS", "VIOLATION", "MANUAL_OVERRIDE", "APPROVAL_GRANTED", "APPROVAL_DENIED"]

/-- An audit entry formatted as the specification claims: an ISO timestamp
in brackets, then a bracketed tag from the closed set, then the message. -/
def SpecFormatted (e : String) : Prop :=
  ∃ ts tag msg, tag ∈ claimTags ∧ e = "[" ++ ts ++ "] [" ++ tag ++ "] " ++ msg

/-- A raw `rate_limits` sub-dictionary, with possibly missing keys. -/
structure RawRateLimits where
  max_requests_per_minute : Option Nat
  burst_limit : Option Nat
deriving Repr, DecidableEq

/-- A raw policy dictionary as `yaml.safe_load` may return it, with possibly
missing keys. -/
structure RawPolicy where
  allowed_modules : Option (List String)
  restricted_actions : Option (List String)
  rate_limits : Option RawRateLimits
deriving Repr, DecidableEq

/-- The exceptions the middleware can raise: a failed/invalid read of the
policy file, or a missing dictionary key. -/
inductive PyError where
  | loadError
  | keyError (k : String)
deriving Repr, DecidableEq

/-- `__init__`: read and parse the file (`none` models an unreadable or
malformed source), then look up only `rate_limits`,
`rate_limits['max_requests_per_minute']` and `rate_limits['burst_limit']`.
Returns the two cached limits and the fresh state. -/
def initMW (src : Option RawPolicy) : Except PyError (Nat × Nat × MW) :=
  match src with
  | none => .error .loadError
  | some p =>
    match p.rate_limits with
    | none => .error (.keyError "rate_limits")
    | some rl =>
      match rl.max_requests_per_minute with
      | none => .error (.keyError "max_requests_per_minute")
      | some mx =>
        match rl.burst_limit with
        | none => .error (.keyError "burst_limit")
        | some bl => .ok (mx, bl, initState)

/-- `validate_action` over a raw policy: the rate check uses the cached
limits and cannot raise; the module and action checks look up
`policy['allowed_modules']` and `policy['restricted_actions']` lazily and
raise `KeyError` when absent. -/
def validate_actionE (p : RawPolicy) (mx bl : Nat) (a m : String) (now : ℚ)
    (ts : String) (s : MW) : Except PyError (Bool × MW) :=
  match checkRateLimit mx bl now ts s with
  | (false, s1) => .ok (false, s1)
  | (true, s1) =>
    match p.allowed_modules with
    | none => .error (.keyError "allowed_modules")
    | some am =>
      if m ∉ am then
        .ok (false, enforceViolation ("Unauthorized module: " ++ m) ts s1)
      else
        match p.restricted_actions with
        | none => .error (.keyError "restricted_actions")
        | some ra =>
          if a ∈ ra then
            .ok (false, enforceViolation ("Restricted action blocked: " ++ a) ts s1)
          else
            let s2 := recordRequest now s1
            .ok (true, { s2 with audit_log := s2.audit_log ++ [passEntry a m ts] })

/-! ### Basic frame lemmas -/

@[simp] theorem enforceViolation_request_times (msg ts : String) (s : MW) :
    (enforceViolation msg ts s).request_times = s.request_times := rfl

@[simp] theorem enforceViolation_current_burst (msg ts : String) (s : MW) :
    (enforceViolation msg ts s).current_burst = s.current_burst := rfl

@[simp] theorem enforceViolation_burst_window_start (msg ts : String) (s : MW) :
    (enforceViolation msg ts s).burst_window_start = s.burst_window_start := rfl

@[simp] theorem enforceViolation_audit_log (msg ts : String) (s : MW) :
    (enforceViolation msg ts s).audit_log =
      s.audit_log ++ ["[" ++ ts ++ "] [VIOLATION] " ++ msg] := rfl

@[simp] theorem rollBurst_request_times (now : ℚ) (s : MW) :
    (rollBurst now s).request_times = s.request_times := by
  simp only [rollBurst]
  split <;> rfl

@[simp] theorem rollBurst_audit_log (now : ℚ) (s : MW) :
    (rollBurst now s).audit_log = s.audit_log := by
  simp only [rollBurst]
  split <;> rfl

theorem rollBurst_current_burst_le (now : ℚ) (s : MW) :
    (rollBurst now s).current_burst ≤ s.current_burst := by
  simp only [rollBurst]
  split <;> simp

theorem rollBurst_stay {now t0 : ℚ} {s : MW} (hbws : s.burst_window_start = some t0)
    (hlt : now - t0 < 60) : rollBurst now s = s := by
  simp only [rollBurst, hbws, Option.getD_some]
  rw [if_neg (not_le.mpr hlt), ← hbws]

theorem rollBurst_roll {now t0 : ℚ} {s : MW} (hbws : s.burst_window_start = some t0)
    (hge : 60 ≤ now - t0) :
    rollBurst now s = { s with current_burst := 0, burst_window_start := some now } := by
  simp only [rollBurst, hbws, Option.getD_some]
  rw [if_pos hge]

/-! ### Path characterization of `_check_rate_limit` -/

theorem checkRateLimit_cases (mx bl : Nat) (now : ℚ) (ts : String) (s : MW) :
    (bl ≤ (rollBurst now s).current_burst ∧
      checkRateLimit mx bl now ts s =
        (false, enforceViolation (burstMsg bl) ts (rollBurst now s))) ∨
    ((rollBurst now s).current_burst < bl ∧ mx ≤ (evict now s.request_times).length ∧
      checkRateLimit mx bl now ts s =
        (false, enforceViolation (windowMsg mx) ts
          { rollBurst now s with request_times := evict now s.request_times })) ∨
    ((rollBurst now s).current_burst < bl ∧ (evict now s.request_times).length < mx ∧
      checkRateLimit mx bl now ts s =
        (true, { rollBurst now s with request_times := evict now s.request_times })) := by
  by_cases h1 : bl ≤ (rollBurst now s).current_burst
  · exact Or.inl ⟨h1, by simp [checkRateLimit, h1]⟩
  · by_cases h2 : mx ≤ (evict now s.request_times).length
    · refine Or.inr (Or.inl ⟨not_le.mp h1, h2, ?_⟩)
      simp [checkRateLimit, h1, h2]
    · refine Or.inr (Or.inr ⟨not_le.mp h1, not_le.mp h2, ?_⟩)
      simp [checkRateLimit, h1, h2]

theorem evict_suffix (now : ℚ) (l : List ℚ) : evict now l <:+ l :=
  List.dropWhile_suffix _

theorem evict_length_le (now : ℚ) (l : List ℚ) : (evict now l).length ≤ l.length :=
  (evict_suffix now l).sublist.length_le

theorem check_request_times_suffix (mx bl : Nat) (now : ℚ) (ts : String) (s : MW) :
    (checkRateLimit mx bl now ts s).2.request_times <:+ s.request_times := by
  rcases checkRateLimit_cases mx bl now ts s with ⟨_, h⟩ | ⟨_, _, h⟩ | ⟨_, _, h⟩ <;>
    rw [h] <;> simp [evict_suffix, List.suffix_refl]

theorem check_current_burst_le (mx bl : Nat) (now : ℚ) (ts : String) (s : MW) :
    (checkRateLimit mx bl now ts s).2.current_burst ≤ s.current_burst := by
  rcases checkRateLimit_cases mx bl now ts s with ⟨_, h⟩ | ⟨_, _, h⟩ | ⟨_, _, h⟩ <;>
    rw [h] <;> simpa using rollBurst_current_burst_le now s

/-! ### C2: what the check does and does not mutate -/

/-- C2 counterexample: `_check_rate_limit` does NOT always leave
`request_times` and `current_burst` unchanged.  With `current_burst = 2`,
`burst_window_start = 0` and one timestamp `0` in the deque, a check at
`now = 100` rolls the burst epoch (resetting `current_burst` to 0) and
evicts the expired timestamp. -/
theorem C2_counterexample :
    ¬ ((checkRateLimit 5 3 100 "T" ⟨[], [0], 2, some 0⟩).2.request_times =
          (⟨[], [0], 2, some 0⟩ : MW).request_times ∧
       (checkRateLimit 5 3 100 "T" ⟨[], [0], 2, some 0⟩).2.current_burst =
          (⟨[], [0], 2, some 0⟩ : MW).current_burst) := by
  norm_num [checkRateLimit, rollBurst, evict, List.dropWhile, enforceViolation]

/-- C2 (amended): the check never appends a timestamp to `request_times`
(the result is always a suffix of the original deque, changed only by
evicting expired entries) and never increments `current_burst` (it can only
reset it to 0 on epoch rollover); `_record_request` is the only operation
that appends a timestamp and increments the burst counter. -/
theorem C2_check_no_consume (mx bl : Nat) (now : ℚ) (ts : String) (s : MW) :
    ((checkRateLimit mx bl now ts s).2.request_times <:+ s.request_times ∧
     (checkRateLimit mx bl now ts s).2.current_burst ≤ s.current_burst) ∧
    recordRequest now s =
      { s with request_times := s.request_times ++ [now],
               current_burst := s.current_burst + 1 } :=
  ⟨⟨check_request_times_suffix mx bl now ts s, check_current_burst_le mx bl now ts s⟩, rfl⟩

/-! ### C8: burst-epoch rollover -/

/-- C8: whenever at least 60 seconds have elapsed since
`burst_window_start`, the rate check resets `current_burst` to 0 and
advances `burst_window_start` to `now`, whatever the deque still holds. -/
theorem C8_burst_epoch_reset (mx bl : Nat) (now t0 : ℚ) (ts : String) (s : MW)
    (hbws : s.burst_window_start = some t0) (hroll : 60 ≤ now - t0) :
    (checkRateLimit mx bl now ts s).2.current_burst = 0 ∧
    (checkRateLimit mx bl now ts s).2.burst_window_start = some now := by
  have hr := rollBurst_roll hbws hroll
  rcases checkRateLimit_cases mx bl now ts s with ⟨_, h⟩ | ⟨_, _, h⟩ | ⟨_, _, h⟩ <;>
    rw [h] <;> simp [hr]

/-- C8 witness: a concrete rollover (epoch started at 0, check at 61, burst
counter 2, stale timestamp 1 still in the deque). -/
theorem C8_witness :
    (checkRateLimit 5 3 61 "T" ⟨[], [1], 2, some 0⟩).2.current_burst = 0 ∧
    (checkRateLimit 5 3 61 "T" ⟨[], [1], 2, some 0⟩).2.burst_window_start = some 61 :=
  C8_burst_epoch_reset 5 3 61 0 "T" ⟨[], [1], 2, some 0⟩ rfl (by norm_num)

/-! ### C5: the burst check preempts every other check -/

/-- Helper: inside the current burst epoch with the burst budget exhausted,
`validate_action` denies any action in any module, appending exactly the
burst-limit violation entry and touching nothing else. -/
theorem validate_burst_denied (P : Policy) (a m : String) (now t0 : ℚ) (ts : String)
    (s : MW) (hbws : s.burst_window_start = some t0) (hlt : now - t0 < 60)
    (hcb : P.burst_limit ≤ s.current_burst) :
    validate_action P a m now ts s =
      (false, { s with audit_log :=
        s.audit_log ++ ["[" ++ ts ++ "] [VIOLATION] " ++ burstMsg P.burst_limit] }) := by
  have hr := rollBurst_stay hbws hlt
  have hcb' : P.burst_limit ≤ (rollBurst now s).current_burst := by rw [hr]; exact hcb
  have hc : checkRateLimit P.max_requests_per_minute P.burst_limit now ts s =
      (false, enforceViolation (burstMsg P.burst_limit) ts s) := by
    simp only [checkRateLimit]
    rw [if_pos hcb', hr]
  simp [validate_action, hc, enforceViolation]

/-- C5: if `current_burst ≥ burst_limit` within the current burst epoch,
`validate` returns `false` through the burst denial — logging the burst
VIOLATION entry — for every action and module, even a restricted action;
the module and restricted-action checks are never reached. -/
theorem C5_burst_preempts_all_checks (P : Policy) (a m : String) (now t0 : ℚ)
    (ts : String) (s : MW) (hbws : s.burst_window_start = some t0)
    (hlt : now - t0 < 60) (hcb : P.burst_limit ≤ s.current_burst) :
    validate_action P a m now ts s =
      (false, { s with audit_log :=
        s.audit_log ++ ["[" ++ ts ++ "] [VIOLATION] " ++ burstMsg P.burst_limit] }) :=
  validate_burst_denied P a m now t0 ts s hbws hlt hcb

/-- The demo policy of the specification's concrete scenario (§8). -/
def Pdemo : Policy := ⟨["math"], ["delete_database"], 5, 3⟩

/-- C5 witness: with the burst budget exhausted, even the restricted action
`delete_database` in the allowed module `math` is denied by the burst check,
not the restricted-action check. -/
theorem C5_witness :
    validate_action Pdemo "delete_database" "math" 1 "T" ⟨[], [0, 0, 0], 3, some 0⟩ =
      (false, { audit_log := ["[T] [VIOLATION] " ++ burstMsg 3],
                request_times := [0, 0, 0], current_burst := 3,
                burst_window_start := some 0 }) :=
  C5_burst_preempts_all_checks Pdemo "delete_database" "math" 1 0 "T"
    ⟨[], [0, 0, 0], 3, some 0⟩ rfl (by norm_num) (by decide)

/-! ### C1: denied calls consume no quota -/

/-- C1: whenever `validate_action` denies — by the burst check, the window
check, the module allow-list or the restricted-action list — no timestamp is
appended to `request_times` (the deque can only lose expired entries) and
`current_burst` is not incremented (it can only drop to 0 on rollover):
quota is consumed only by fully approved calls. -/
theorem C1_denied_consumes_no_quota (P : Policy) (a m : String) (now : ℚ)
    (ts : String) (s : MW) (h : (validate_action P a m now ts s).1 = false) :
    (validate_action P a m now ts s).2.request_times <:+ s.request_times ∧
    (validate_action P a m now ts s).2.current_burst ≤ s.current_burst := by
  have hsuf := check_request_times_suffix P.max_requests_per_minute P.burst_limit now ts s
  have hcb := check_current_burst_le P.max_requests_per_minute P.burst_limit now ts s
  rcases hc : checkRateLimit P.max_requests_per_minute P.burst_limit now ts s with ⟨b, s1⟩
  rw [hc] at hsuf hcb
  cases b with
  | false => simpa [validate_action, hc] using ⟨hsuf, hcb⟩
  | true =>
    by_cases hm : m ∉ P.allowed_modules
    · simpa [validate_action, hc, hm] using ⟨hsuf, hcb⟩
    · by_cases ha : a ∈ P.restricted_actions
      · simpa [validate_action, hc, hm, ha] using ⟨hsuf, hcb⟩
      · simp [validate_action, hc, hm, ha] at h

/-- C1 witness: a burst-denied call leaves the quota state untouched. -/
theorem C1_witness :
    (validate_action Pdemo "calculate_sum" "math" 1 "T" ⟨[], [], 3, some 0⟩).2.request_times <:+
      (⟨[], [], 3, some 0⟩ : MW).request_times ∧
    (validate_action Pdemo "calculate_sum" "math" 1 "T" ⟨[], [], 3, some 0⟩).2.current_burst ≤
      (⟨[], [], 3, some 0⟩ : MW).current_burst :=
  C1_denied_consumes_no_quota Pdemo "calculate_sum" "math" 1 "T" ⟨[], [], 3, some 0⟩
    (by rw [validate_burst_denied Pdemo "calculate_sum" "math" 1 0 "T" _ rfl
              (by norm_num) (by decide)])

/-! ### C9: the status projection matches its specification -/

/-- C9: for every state and every `now`, `get_rate_limit_status` returns
exactly the record §4.5 of the specification describes: the read-only count
of deque entries within the last minute, the unclamped (possibly negative)
remaining quota, the `current_burst/burst_limit` string, and the rounded
time until the oldest entry leaves the window (0 on an empty deque). -/
theorem C9_status_spec (mx bl : Nat) (now : ℚ) (s : MW) :
    get_rate_limit_status mx bl now s = rateLimitStatusSpec mx bl now s := by
  cases h : s.request_times with
  | nil => simp [get_rate_limit_status, rateLimitStatusSpec, h, round2]
  | cons a l => simp [get_rate_limit_status, rateLimitStatusSpec, h, List.headI]

/-! ### C10: the configured limits bound the counters -/

/-- Helper: one `validate_action` call keeps `current_burst` within
`burst_limit` and the deque length within `max_requests_per_minute`. -/
theorem validate_preserves_bounds (P : Policy) (a m : String) (now : ℚ) (ts : String)
    (s : MW) (h1 : s.current_burst ≤ P.burst_limit)
    (h2 : s.request_times.length ≤ P.max_requests_per_minute) :
    (validate_action P a m now ts s).2.current_burst ≤ P.burst_limit ∧
    (validate_action P a m now ts s).2.request_times.length ≤
      P.max_requests_per_minute := by
  have hcble := rollBurst_current_burst_le now s
  rcases checkRateLimit_cases P.max_requests_per_minute P.burst_limit now ts s with
    ⟨hb, hc⟩ | ⟨hb, hw, hc⟩ | ⟨hb, hw, hc⟩
  · constructor <;> simp [validate_action, hc] <;> omega
  · have hev := evict_length_le now s.request_times
    constructor <;> simp [validate_action, hc] <;> omega
  · have hev := evict_length_le now s.request_times
    by_cases hm : m ∉ P.allowed_modules
    · constructor <;> simp [validate_action, hc, hm] <;> omega
    · by_cases ha : a ∈ P.restricted_actions
      · constructor <;> simp [validate_action, hc, hm, ha] <;> omega
      · constructor <;> simp [validate_action, hc, hm, ha, recordRequest] <;> omega

/-- C10: after any sequence of `validate` calls from the freshly constructed
state, `current_burst ≤ burst_limit` and
`length request_times ≤ max_requests_per_minute`. -/
theorem C10_counters_bounded (P : Policy)
    (calls : List (String × String × ℚ × String)) :
    (runValidates P calls initState).current_burst ≤ P.burst_limit ∧
    (runValidates P calls initState).request_times.length ≤
      P.max_requests_per_minute := by
  have key : ∀ (cs : List (String × String × ℚ × String)) (s : MW),
      s.current_burst ≤ P.burst_limit →
      s.request_times.length ≤ P.max_requests_per_minute →
      (runValidates P cs s).current_burst ≤ P.burst_limit ∧
      (runValidates P cs s).request_times.length ≤ P.max_requests_per_minute := by
    intro cs
    induction cs with
    | nil => intro s hs1 hs2; exact ⟨hs1, hs2⟩
    | cons c rest ih =>
      intro s hs1 hs2
      rcases c with ⟨a, m, now, ts⟩
      have step := validate_preserves_bounds P a m now ts s hs1 hs2
      exact ih _ step.1 step.2
  exact key calls initState (by simp [initState]) (by simp [initState])

/-! ### Substring machinery -/

theorem hasPre_append (n post : List Char) : hasPre n (n ++ post) = true := by
  induction n with
  | nil => rfl
  | cons a as ih => simp [hasPre, ih]

theorem containsSub_append (n pre post : List Char) :
    containsSub n (pre ++ (n ++ post)) = true := by
  induction pre with
  | nil =>
    cases n with
    | nil => cases post <;> simp [containsSub, hasPre]
    | cons a as =>
      simp only [containsSub, List.nil_append, Bool.or_eq_true]
      exact Or.inl (hasPre_append (a :: as) post)
  | cons p ps ih => simp [containsSub, ih]

/-- The claimed entry format forces the bracketed tag to occur as a
substring of the entry. -/
theorem specFormatted_containsSub {e ts tag msg : String}
    (he : e = "[" ++ ts ++ "] [" ++ tag ++ "] " ++ msg) :
    containsSub ('[' :: tag.data ++ [']']) e.data = true := by
  have hdata : e.data =
      ('[' :: ts.data ++ [']', ' ']) ++
        (('[' :: tag.data ++ [']']) ++ (' ' :: msg.data)) := by
    rw [he]
    simp [String.data_append, List.append_assoc]
  rw [hdata]
  exact containsSub_append _ _ _

/-! ### C4: the shapes of audit entries -/

/-- The shapes an audit entry can actually take in this code base: the
timestamped `PASS`/`VIOLATION` entries written by `validate_action`, or one
of the three timestamp-less manual governance entries written by
`main.py`. -/
def ValidShape (e : String) : Prop :=
  (∃ ts msg, e = "[" ++ ts ++ "] [PASS] " ++ msg) ∨
  (∃ ts msg, e = "[" ++ ts ++ "] [VIOLATION] " ++ msg) ∨
  (∃ a m r, e = manual_override_entry a m r) ∨
  (∃ a m, e = approval_granted_entry a m) ∨
  (∃ a m, e = approval_denied_entry a m)

theorem validShape_passEntry (a m ts : String) : ValidShape (passEntry a m ts) := by
  refine Or.inl ⟨ts, a ++ " executed in module '" ++ m ++ "'", ?_⟩
  simp only [passEntry, String.append_assoc]

theorem validate_audit_shapes (P : Policy) (a m : String) (now : ℚ) (ts : String)
    (s : MW) : ∀ e ∈ (validate_action P a m now ts s).2.audit_log,
      e ∈ s.audit_log ∨ ValidShape e := by
  have hviol : ∀ msg, ValidShape ("[" ++ ts ++ "] [VIOLATION] " ++ msg) := by
    intro msg; exact Or.inr (Or.inl ⟨ts, msg, rfl⟩)
  have hroll := rollBurst_audit_log now s
  rcases checkRateLimit_cases P.max_requests_per_minute P.burst_limit now ts s with
    ⟨hb, hc⟩ | ⟨hb, hw, hc⟩ | ⟨hb, hw, hc⟩
  · intro e he
    simp [validate_action, hc, hroll] at he
    rcases he with he | he
    · exact Or.inl he
    · exact Or.inr (he ▸ hviol _)
  · intro e he
    simp [validate_action, hc, hroll] at he
    rcases he with he | he
    · exact Or.inl he
    · exact Or.inr (he ▸ hviol _)
  · intro e he
    by_cases hm : m ∉ P.allowed_modules
    · simp [validate_action, hc, hm, hroll] at he
      rcases he with he | he
      · exact Or.inl he
      · exact Or.inr (he ▸ hviol _)
    · by_cases ha : a ∈ P.restricted_actions
      · simp [validate_action, hc, hm, ha, hroll] at he
        rcases he with he | he
        · exact Or.inl he
        · exact Or.inr (he ▸ hviol _)
      · simp [validate_action, hc, hm, ha, recordRequest, hroll] at he
        rcases he with he | he
        · exact Or.inl he
        · exact Or.inr (he ▸ validShape_passEntry a m ts)

theorem applyOp_audit_shapes (P : Policy) (s : MW) (op : Op) :
    ∀ e ∈ (applyOp P s op).audit_log, e ∈ s.audit_log ∨ ValidShape e := by
  cases op with
  | validate a m now ts => exact validate_audit_shapes P a m now ts s
  | manualOverride a m r =>
    intro e he
    simp [applyOp] at he
    rcases he with he | he
    · exact Or.inl he
    · exact Or.inr (Or.inr (Or.inr (Or.inl ⟨a, m, r, he⟩)))
  | approveAction a m ok =>
    intro e he
    simp [applyOp] at he
    rcases he with he | he
    · exact Or.inl he
    · cases ok with
      | true => exact Or.inr (Or.inr (Or.inr (Or.inr (Or.inl ⟨a, m, by simpa using he⟩))))
      | false => exact Or.inr (Or.inr (Or.inr (Or.inr (Or.inr ⟨a, m, by simpa using he⟩))))

/-- C4 (amended): after any sequence of operations from the fresh state,
every audit-log entry is either a `validate` entry
`"[<ts>] [PASS] <msg>"` / `"[<ts>] [VIOLATION] <msg>"`, or one of the three
manual governance entries `"[MANUAL OVERRIDE] ..."`,
`"[APPROVAL GRANTED] ..."`, `"[APPROVAL DENIED] ..."` — the latter carry no
timestamp and their bracketed tags contain a space, not an underscore. -/
theorem C4_audit_entry_shapes (P : Policy) (ops : List Op) (e : String)
    (he : e ∈ (runOps P ops initState).audit_log) : ValidShape e := by
  have key : ∀ (l : List Op) (s : MW),
      (∀ x ∈ s.audit_log, ValidShape x) →
      ∀ x ∈ (runOps P l s).audit_log, ValidShape x := by
    intro l
    induction l with
    | nil => intro s hs; exact hs
    | cons op rest ih =>
      intro s hs
      refine ih (applyOp P s op) ?_
      intro x hx
      rcases applyOp_audit_shapes P s op x hx with h | h
      · exact hs x h
      · exact h
  exact key ops initState (by simp [initState]) e he

/-- C4 witness: the entry written by an approval-granted governance call has
one of the reachable shapes. -/
theorem C4_witness : ValidShape (approval_granted_entry "calculate_sum" "math") :=
  C4_audit_entry_shapes Pdemo [Op.approveAction "calculate_sum" "math" true]
    (approval_granted_entry "calculate_sum" "math")
    (by simp [runOps, applyOp, initState])

/-- C4 counterexample: the manual-override entry that
`POST /governance/override` appends is reachable, yet it is not of the
claimed form `"[<ISO timestamp>] [<TAG>] <message>"` with a tag from the
closed set — it has no timestamp bracket and its tag reads
`MANUAL OVERRIDE`, with a space. -/
theorem C4_counterexample :
    manual_override_entry "restart" "system" "ops" ∈
      (runOps Pdemo [Op.manualOverride "restart" "system" "ops"] initState).audit_log ∧
    ¬ SpecFormatted (manual_override_entry "restart" "system" "ops") := by
  constructor
  · simp [runOps, applyOp, initState]
  · rintro ⟨ts, tag, msg, htag, he⟩
    have hsub := specFormatted_containsSub he
    simp only [claimTags, List.mem_cons, List.mem_singleton] at htag
    rcases htag with rfl | rfl | rfl | rfl | rfl | h
    · exact absurd hsub (by decide)
    · exact absurd hsub (by decide)
    · exact absurd hsub (by decide)
    · exact absurd hsub (by decide)
    · exact absurd hsub (by decide)
    · exact absurd h (by simp)

/-! ### C7: the violation filter of `get_audit_log` -/

/-- A tagged entry contains its bracketed tag as a substring. -/
theorem entryTag_containsSub {e t : String} (h : entryTag e = some t) :
    containsSub ('[' :: t.data ++ [']']) e.data = true := by
  unfold entryTag at h
  split at h
  all_goals try exact Option.noConfusion h
  rename_i rest heq
  split at h
  all_goals try exact Option.noConfusion h
  rename_i rest2 heq2
  split at h
  all_goals try exact Option.noConfusion h
  rename_i tail heq3
  have ht : t.data = rest2.takeWhile (fun c => decide (c ≠ ']')) := by
    have h2 := Option.some.inj h
    rw [← h2]
  obtain ⟨tk, htk⟩ : ∃ tk, List.takeWhile (fun c => decide (c ≠ ']')) rest = tk := ⟨_, rfl⟩
  have hrest : rest = List.takeWhile (fun c => decide (c ≠ ']')) rest ++
      (']' :: ' ' :: '[' :: rest2) := by
    conv_lhs => rw [← List.takeWhile_append_dropWhile (fun c => decide (c ≠ ']')) rest]
    rw [heq2]
  have hrest2 : rest2 = t.data ++ (']' :: tail) := by
    rw [ht]
    conv_lhs => rw [← List.takeWhile_append_dropWhile (fun c => decide (c ≠ ']')) rest2]
    rw [heq3]
  have hdata : e.data = ('[' :: tk ++ [']', ' ']) ++
      (('[' :: t.data ++ [']']) ++ tail) := by
    rw [heq]
    conv_lhs => rw [hrest, hrest2]
    rw [htk]
    simp [List.append_assoc]
  rw [hdata]
  exact containsSub_append _ _ _

/-- C7 (amended): `get_audit_log(true)` is the order-preserving sublist of
`get_audit_log(false)` consisting of exactly the entries that contain the
substring `"[VIOLATION]"`.  This includes every VIOLATION-tagged entry, but
the filter is a substring test, not a tag test, so an entry of another tag
whose message embeds `"[VIOLATION]"` is also included. -/
theorem C7_filter_substring (s : MW) :
    get_audit_log true s =
      (get_audit_log false s).filter
        (fun e => containsSub ("[VIOLATION]" : String).data e.data) ∧
    (get_audit_log true s).Sublist (get_audit_log false s) ∧
    ∀ e ∈ get_audit_log false s, entryTag e = some "VIOLATION" →
      e ∈ get_audit_log true s := by
  refine ⟨rfl, ?_, ?_⟩
  · simp only [get_audit_log, if_true]
    exact List.filter_sublist _
  · intro e he htag
    have hsub := entryTag_containsSub htag
    have he' : e ∈ s.audit_log := by simpa [get_audit_log] using he
    have hfilter : get_audit_log true s =
        s.audit_log.filter (fun x => containsSub ("[VIOLATION]" : String).data x.data) := rfl
    rw [hfilter]
    exact List.mem_filter.mpr ⟨he', hsub⟩

/-- The state produced by one approved `validate` call whose action name
embeds the text `"[VIOLATION]"`. -/
def sC7 : MW := (validate_action Pdemo "x [VIOLATION] y" "math" 0 "T" initState).2

/-- C7 counterexample: the filtered audit log does not contain only
VIOLATION-tagged entries.  A reachable state has a PASS-tagged entry whose
message embeds `"[VIOLATION]"`, and the substring filter returns it. -/
theorem C7_counterexample :
    get_audit_log true sC7 =
      ["[T] [PASS] x [VIOLATION] y executed in module 'math'"] ∧
    entryTag "[T] [PASS] x [VIOLATION] y executed in module 'math'" = some "PASS" := by
  have h0 : sC7 =
      ⟨["[T] [PASS] x [VIOLATION] y executed in module 'math'"], [0], 1, some 0⟩ := by
    norm_num [sC7, validate_action, checkRateLimit, rollBurst, evict, initState, Pdemo,
              recordRequest, passEntry, List.dropWhile]
    simp
  rw [h0]
  exact ⟨by decide, by decide⟩

/-- The state produced by one `validate` call denied for an unauthorized
module. -/
def sC7w : MW := (validate_action Pdemo "read_file" "filesystem" 0 "T" initState).2

/-- C7 witness: in a concrete state, the VIOLATION-tagged entry is indeed
returned by the violations-only query. -/
theorem C7_witness :
    "[T] [VIOLATION] Unauthorized module: filesystem" ∈ get_audit_log true sC7w := by
  have h0 : sC7w = ⟨["[T] [VIOLATION] Unauthorized module: filesystem"], [], 0, some 0⟩ := by
    norm_num [sC7w, validate_action, checkRateLimit, rollBurst, evict, initState, Pdemo,
              enforceViolation, List.dropWhile]
    simp
  exact (C7_filter_substring sC7w).2.2 _ (by rw [h0]; decide) (by decide)

/-! ### C3: construction errors and post-construction totality -/

/-- The raw policy of the C3 counterexample: `rate_limits` complete, but
`allowed_modules` and `restricted_actions` missing. -/
def pC3bad : RawPolicy := ⟨none, none, some ⟨some 5, some 3⟩⟩

/-- C3 counterexample: construction succeeds although the required key
`allowed_modules` is missing (only the two `rate_limits` keys are read by
`__init__`), and the very first `validate` call afterwards fails
unrecoverably with `KeyError: allowed_modules`. -/
theorem C3_counterexample :
    initMW (some pC3bad) = .ok (5, 3, initState) ∧
    validate_actionE pC3bad 5 3 "calculate_sum" "math" 0 "T" initState =
      .error (.keyError "allowed_modules") := by
  constructor
  · rfl
  · have hc : checkRateLimit 5 3 0 "T" initState = (true, ⟨[], [], 0, some 0⟩) := by
      norm_num [checkRateLimit, rollBurst, evict, initState, List.dropWhile]
    simp [validate_actionE, hc, pC3bad]

/-- The complete raw policy used by the C3 witness. -/
def pC3ok : RawPolicy :=
  ⟨some ["math"], some ["delete_database"], some ⟨some 5, some 3⟩⟩

/-- C3 (amended): construction fails when the source is
unreadable/malformed, or when `rate_limits`,
`rate_limits.max_requests_per_minute` or `rate_limits.burst_limit` is
missing (each with the corresponding error); `allowed_modules` and
`restricted_actions` are not checked at construction.  When all four keys
are present, construction succeeds and `validate` never raises: every call
returns an ordinary boolean, equal to the total model's result. -/
theorem C3_complete_policy_total (p : RawPolicy) (am ra : List String)
    (rl : RawRateLimits) (mx bl : Nat)
    (h1 : p.allowed_modules = some am) (h2 : p.restricted_actions = some ra)
    (h3 : p.rate_limits = some rl) (h4 : rl.max_requests_per_minute = some mx)
    (h5 : rl.burst_limit = some bl) :
    initMW none = .error .loadError ∧
    (∀ q : RawPolicy, q.rate_limits = none →
      initMW (some q) = .error (.keyError "rate_limits")) ∧
    (∀ (q : RawPolicy) (qrl : RawRateLimits), q.rate_limits = some qrl →
      qrl.max_requests_per_minute = none →
      initMW (some q) = .error (.keyError "max_requests_per_minute")) ∧
    (∀ (q : RawPolicy) (qrl : RawRateLimits) (qmx : Nat), q.rate_limits = some qrl →
      qrl.max_requests_per_minute = some qmx → qrl.burst_limit = none →
      initMW (some q) = .error (.keyError "burst_limit")) ∧
    initMW (some p) = .ok (mx, bl, initState) ∧
    ∀ (a m : String) (now : ℚ) (ts : String) (s : MW),
      validate_actionE p mx bl a m now ts s =
        .ok (validate_action ⟨am, ra, mx, bl⟩ a m now ts s) := by
  refine ⟨rfl, ?_, ?_, ?_, by simp [initMW, h3, h4, h5], ?_⟩
  · intro q hq
    simp [initMW, hq]
  · intro q qrl hq hqmx
    simp [initMW, hq, hqmx]
  · intro q qrl qmx hq hqmx hqbl
    simp [initMW, hq, hqmx, hqbl]
  · intro a m now ts s
    rcases hc : checkRateLimit mx bl now ts s with ⟨b, s1⟩
    cases b with
    | false => simp [validate_actionE, validate_action, hc]
    | true =>
      by_cases hm : m ∉ am
      · simp [validate_actionE, validate_action, hc, h1, hm]
      · by_cases ha : a ∈ ra
        · simp [validate_actionE, validate_action, hc, h1, h2, hm, ha]
        · simp [validate_actionE, validate_action, hc, h1, h2, hm, ha]

/-- C3 witness: with all four keys present, construction returns the cached
limits and the fresh state and a concrete `validate` call returns the
boolean result without raising; with `rate_limits` or one of its sub-keys
missing, construction fails with the corresponding `KeyError`. -/
theorem C3_witness :
    initMW (some pC3ok) = .ok (5, 3, initState) ∧
    initMW (some ⟨some ["math"], some [], none⟩) = .error (.keyError "rate_limits") ∧
    initMW (some ⟨some ["math"], some [], some ⟨none, some 3⟩⟩) =
      .error (.keyError "max_requests_per_minute") ∧
    initMW (some ⟨some ["math"], some [], some ⟨some 5, none⟩⟩) =
      .error (.keyError "burst_limit") ∧
    validate_actionE pC3ok 5 3 "calculate_sum" "math" 0 "T" initState =
      .ok (validate_action ⟨["math"], ["delete_database"], 5, 3⟩
            "calculate_sum" "math" 0 "T" initState) :=
  ⟨(C3_complete_policy_total pC3ok _ _ _ 5 3 rfl rfl rfl rfl rfl).2.2.2.2.1,
   (C3_complete_policy_total pC3ok _ _ _ 5 3 rfl rfl rfl rfl rfl).2.1
     ⟨some ["math"], some [], none⟩ rfl,
   (C3_complete_policy_total pC3ok _ _ _ 5 3 rfl rfl rfl rfl rfl).2.2.1
     ⟨some ["math"], some [], some ⟨none, some 3⟩⟩ ⟨none, some 3⟩ rfl rfl,
   (C3_complete_policy_total pC3ok _ _ _ 5 3 rfl rfl rfl rfl rfl).2.2.2.1
     ⟨some ["math"], some [], some ⟨some 5, none⟩⟩ ⟨some 5, none⟩ 5 rfl rfl rfl,
   (C3_complete_policy_total pC3ok _ _ _ 5 3 rfl rfl rfl rfl rfl).2.2.2.2.2
     "calculate_sum" "math" 0 "T" initState⟩

/-! ### C6: a burst of `burst_limit` calls inside one epoch -/

/-- Helper: one approved call inside the current epoch increments the burst
counter, keeps the epoch start, and grows the deque by at most one. -/
theorem validate_step_ok (P : Policy) (a m : String) (t t0 : ℚ) (ts : String) (s : MW)
    (hm : m ∈ P.allowed_modules) (ha : a ∉ P.restricted_actions)
    (hbws : s.burst_window_start = some t0) (hlt : t - t0 < 60)
    (hcb : s.current_burst < P.burst_limit)
    (hlen : s.request_times.length < P.max_requests_per_minute) :
    (validate_action P a m t ts s).1 = true ∧
    (validate_action P a m t ts s).2.current_burst = s.current_burst + 1 ∧
    (validate_action P a m t ts s).2.burst_window_start = some t0 ∧
    (validate_action P a m t ts s).2.request_times.length ≤
      s.request_times.length + 1 := by
  have hr := rollBurst_stay hbws hlt
  have hev := evict_length_le t s.request_times
  have hc : checkRateLimit P.max_requests_per_minute P.burst_limit t ts s =
      (true, { s with request_times := evict t s.request_times }) := by
    rcases checkRateLimit_cases P.max_requests_per_minute P.burst_limit t ts s with
      ⟨hb, h⟩ | ⟨_, hw, h⟩ | ⟨_, _, h⟩
    · exfalso; rw [hr] at hb; omega
    · exfalso; omega
    · rw [h, hr]
  refine ⟨by simp [validate_action, hc, hm, ha], ?_, ?_, ?_⟩
  · simp [validate_action, hc, hm, ha, recordRequest]
  · simp [validate_action, hc, hm, ha, recordRequest, hbws]
  · simp only [validate_action, hc, hm, ha, recordRequest]
    simp [hm, ha]
    omega

/-- Helper: a run of approved calls inside the epoch returns all `true`,
raises the burst counter by its length, keeps the epoch start, and grows the
deque by at most its length. -/
theorem runSeq_all_ok (P : Policy) (a m ts : String) (t0 : ℚ)
    (hm : m ∈ P.allowed_modules) (ha : a ∉ P.restricted_actions) :
    ∀ (times : List ℚ) (s : MW),
      s.burst_window_start = some t0 →
      (∀ t ∈ times, t - t0 < 60) →
      s.current_burst + times.length ≤ P.burst_limit →
      s.request_times.length + times.length ≤ P.max_requests_per_minute →
      (runSeq P a m ts times s).1 = List.replicate times.length true ∧
      (runSeq P a m ts times s).2.current_burst = s.current_burst + times.length ∧
      (runSeq P a m ts times s).2.burst_window_start = some t0 ∧
      (runSeq P a m ts times s).2.request_times.length ≤
        s.request_times.length + times.length := by
  intro times
  induction times with
  | nil => intro s h1 h2 h3 h4; simpa [runSeq] using h1
  | cons t rest ih =>
    intro s h1 h2 h3 h4
    have hcb : s.current_burst < P.burst_limit := by
      simp only [List.length_cons] at h3; omega
    have hlen : s.request_times.length < P.max_requests_per_minute := by
      simp only [List.length_cons] at h4; omega
    obtain ⟨hb, hcb', hbw', hlen'⟩ := validate_step_ok P a m t t0 ts s hm ha h1
      (h2 t (List.mem_cons_self t rest)) hcb hlen
    obtain ⟨ih1, ih2, ih3, ih4⟩ := ih (validate_action P a m t ts s).2 hbw'
      (fun t' ht' => h2 t' (List.mem_cons_of_mem t ht'))
      (by simp only [List.length_cons] at h3; omega)
      (by simp only [List.length_cons] at h4; omega)
    refine ⟨?_, ?_, by simpa [runSeq] using ih3, ?_⟩
    · simp only [runSeq, List.length_cons, List.replicate_succ]
      rw [hb, ih1]
    · simp only [runSeq, List.length_cons]
      omega
    · simp only [runSeq, List.length_cons]
      omega

/-- C6 (amended): starting from a fresh burst epoch whose sliding-window
occupancy leaves room for the whole burst
(`length request_times + burst_limit ≤ max_requests_per_minute`), any
sequence of `burst_limit` validate calls with an allowed module and a
non-restricted action inside the epoch all return `true`, and the next such
call in the same epoch returns `false` through the burst denial — however
much window headroom remains.  (Without the room hypothesis the sliding
window can deny a call before the burst budget is spent.) -/
theorem C6_burst_window_sequence (P : Policy) (a m ts : String) (t0 tn : ℚ)
    (times : List ℚ) (s : MW)
    (hm : m ∈ P.allowed_modules) (ha : a ∉ P.restricted_actions)
    (hcb0 : s.current_burst = 0) (hbws : s.burst_window_start = some t0)
    (hroom : s.request_times.length + P.burst_limit ≤ P.max_requests_per_minute)
    (hn : times.length = P.burst_limit)
    (htimes : ∀ t ∈ times, t - t0 < 60) (htn : tn - t0 < 60) :
    (runSeq P a m ts times s).1 = List.replicate P.burst_limit true ∧
    (validate_action P a m tn ts (runSeq P a m ts times s).2).1 = false ∧
    (validate_action P a m tn ts (runSeq P a m ts times s).2).2.audit_log =
      (runSeq P a m ts times s).2.audit_log ++
        ["[" ++ ts ++ "] [VIOLATION] " ++ burstMsg P.burst_limit] := by
  obtain ⟨h1, h2, h3, h4⟩ := runSeq_all_ok P a m ts t0 hm ha times s hbws htimes
    (by omega) (by omega)
  have hden := validate_burst_denied P a m tn t0 ts (runSeq P a m ts times s).2 h3 htn
    (by rw [h2, hcb0, hn]; omega)
  exact ⟨by rw [h1, hn], by rw [hden], by rw [hden]⟩

/-- A state at the start of a fresh burst epoch (counter zero, epoch begun
at time 0, empty deque and log). -/
def sFresh : MW := ⟨[], [], 0, some 0⟩

/-- C6 counterexample: the claim fails without a window-headroom side
condition.  With `max_requests_per_minute = 2 < 3 = burst_limit`, three
valid calls inside a fresh epoch yield `true, true, false` — the third is
denied by the sliding window before the burst budget is spent — so not all
`burst_limit` consecutive calls return `true`. -/
theorem C6_counterexample :
    (runSeq ⟨["math"], [], 2, 3⟩ "add" "math" "T" [0, 0, 0] sFresh).1 ≠
      List.replicate 3 true := by
  have hres : (runSeq ⟨["math"], [], 2, 3⟩ "add" "math" "T" [0, 0, 0] sFresh).1 =
      [true, true, false] := by
    norm_num [runSeq, sFresh, validate_action, checkRateLimit, rollBurst, evict,
              recordRequest, enforceViolation, passEntry, List.dropWhile]
  rw [hres]
  decide

/-- C6 witness: under the demo policy (burst 3, window 5) three calls at
time 0 all pass and a fourth inside the epoch is denied by the burst
check. -/
theorem C6_witness :
    (runSeq Pdemo "calculate_sum" "math" "T" [0, 0, 0] sFresh).1 =
      List.replicate Pdemo.burst_limit true ∧
    (validate_action Pdemo "calculate_sum" "math" 1 "T"
        (runSeq Pdemo "calculate_sum" "math" "T" [0, 0, 0] sFresh).2).1 = false ∧
    (validate_action Pdemo "calculate_sum" "math" 1 "T"
        (runSeq Pdemo "calculate_sum" "math" "T" [0, 0, 0] sFresh).2).2.audit_log =
      (runSeq Pdemo "calculate_sum" "math" "T" [0, 0, 0] sFresh).2.audit_log ++
        ["[" ++ "T" ++ "] [VIOLATION] " ++ burstMsg Pdemo.burst_limit] :=
  C6_burst_window_sequence Pdemo "calculate_sum" "math" "T" 0 1 [0, 0, 0] sFresh
    (by decide) (by decide) rfl rfl (by decide) (by decide)
    (by intro t ht
        simp only [List.mem_cons, List.not_mem_nil, or_false] at ht
        rcases ht with rfl | rfl | rfl <;> norm_num)
    (by norm_num)

end PolicyMW
